import Mathlib

/-!
Verification of the StudioMode coordination core: the Task Registry, the
State Machine, and the Dispatch Loop (`orchestrator.ps1`).

The Dispatch Loop is embedded from the PowerShell source
(`.core/spokes/orchestrator.ps1`).  The backing Memory Daemon
(`.core/services/memory_server.py`, started by `Conductor.ps1`) is not part
of the repository snapshot, so the Task Registry and State Machine it
implements are modelled from the specification (its client
`memory_client.psm1` and the test suite `verify_studio_mode.ps1` fix the
API surface).
-/

namespace StudioMode

/-- Task lifecycle status: the `status` column of a task row
(`pending`, `in_progress`, `completed`, `failed`, `review`). -/
inductive TaskStatus where
  | pending
  | in_progress
  | completed
  | failed
  | review
deriving DecidableEq, Repr

/-- Task priority (`low`, `normal`, `high`), an ordering tie-break only. -/
inductive Priority where
  | low
  | normal
  | high
deriving DecidableEq, Repr

/-- Modelled from the spec: the Task record of §3 of the specification.
The server holding the task table (`memory_server.py`) is missing from the
snapshot; the fields follow §3 and the JSON bodies sent by
`memory_client.psm1`.  Timestamps are abstracted as naturals and `metadata`
as an association list. -/
structure Task where
  id : Nat
  text : String
  assignee : String
  status : TaskStatus
  priority : Priority
  claimed_by : Option String
  created_at : Nat
  updated_at : Nat
  metadata : List (String × String)
deriving DecidableEq, Repr

/-- Global system phase, as posted to `/state/update` by the orchestrator
and validated by `Set-AgentState` in `memory_client.psm1`. -/
inductive SysState where
  | IDLE
  | PLANNING
  | EXECUTING
  | REVIEW
deriving DecidableEq, Repr

/-- Modelled from the spec: the registry-side error taxonomy of §7
(`ConflictError`, `NotFoundError`, `InvalidTransitionError`,
`ValidationError`). -/
inductive RegError where
  | conflict
  | notFound
  | invalidTransition
  | validation
deriving DecidableEq, Repr

/-- Modelled from the spec: the payload of `InvalidTransitionError{current,
requested}` raised by the State Machine (§4.2). -/
structure InvalidTransition where
  current : SysState
  requested : SysState
deriving DecidableEq, Repr

/-- Modelled from the spec: the legal-transition table of §4.2:
`IDLE → PLANNING | EXECUTING`, `PLANNING → EXECUTING`,
`EXECUTING → REVIEW`, `REVIEW → IDLE | PLANNING`. -/
def legalEdge : SysState → SysState → Bool
  | .IDLE, .PLANNING => true
  | .IDLE, .EXECUTING => true
  | .PLANNING, .EXECUTING => true
  | .EXECUTING, .REVIEW => true
  | .REVIEW, .IDLE => true
  | .REVIEW, .PLANNING => true
  | _, _ => false

/-- Modelled from the spec: `transition(requested)` of §4.2.  A request for
the current state is a successful idempotent no-op (§4.2, third bullet);
a request along a table edge is applied; any other request fails with
`InvalidTransitionError{current, requested}`. -/
def stmTransition (current requested : SysState) : Except InvalidTransition SysState :=
  if requested = current then .ok current
  else if legalEdge current requested then .ok requested
  else .error ⟨current, requested⟩

/-- State observed by `getState()` after a transition attempt: the new
state on success, the unchanged current state on rejection. -/
def stateAfter (current requested : SysState) : SysState :=
  match stmTransition current requested with
  | .ok s => s
  | .error _ => current

/-- First task in the registry with the given id (`find?` over the row
list; rows are kept in `created_at` order, as `list` returns them). -/
def findTask (reg : List Task) (tid : Nat) : Option Task :=
  reg.find? (fun t => t.id = tid)

/-- Replace the task with the given id by `t'`, leaving other rows
untouched. -/
def replaceTask (reg : List Task) (tid : Nat) (t' : Task) : List Task :=
  reg.map (fun u => if u.id = tid then t' else u)

/-- Modelled from the spec: `create(text, assignee, priority, metadata)`
of §4.1 — always succeeds, returns a new task with `status = pending`
and no claimant; the row is appended, keeping `created_at` order. -/
def create (reg : List Task) (id : Nat) (text assignee : String) (prio : Priority)
    (meta : List (String × String)) (now : Nat) : List Task :=
  reg ++ [⟨id, text, assignee, .pending, prio, none, now, now, meta⟩]

/-- Row produced by a successful claim: `status = in_progress`,
`claimed_by = agent`, `updated_at` bumped. -/
def afterClaim (t : Task) (agent : String) (now : Nat) : Task :=
  { t with status := .in_progress, claimed_by := some agent, updated_at := now }

/-- Modelled from the spec: the atomic `claim(task_id, agent_id)` of §4.1.
Succeeds only when the task is `pending`; on success sets
`status = in_progress`, `claimed_by = agent_id` and bumps `updated_at`;
otherwise returns `ConflictError` (or `NotFoundError` for an unknown id)
and leaves the registry untouched. -/
def claim (reg : List Task) (tid : Nat) (agent : String) (now : Nat) :
    Except RegError Task × List Task :=
  match findTask reg tid with
  | none => (.error .notFound, reg)
  | some t =>
    if t.status = .pending then
      (.ok (afterClaim t agent now), replaceTask reg tid (afterClaim t agent now))
    else (.error .conflict, reg)

/-- Eligibility of a task for `nextForAgent`: `pending` and assigned to the
requested role exactly or to the wildcard assignee. -/
def eligibleFor (role : String) (t : Task) : Bool :=
  t.status = TaskStatus.pending && (t.assignee = role || t.assignee = "*")

/-- Modelled from the spec: `nextForAgent(agent_id, role)` of §4.1 — the
atomic find-and-claim.  The oldest eligible `pending` task (the first in
`created_at` order) is claimed in the same atomic step; `none` is returned
when no eligible task exists. -/
def nextForAgent (reg : List Task) (agent role : String) (now : Nat) :
    Option Task × List Task :=
  match reg.find? (eligibleFor role) with
  | none => (none, reg)
  | some t =>
    match claim reg t.id agent now with
    | (.ok t', reg') => (some t', reg')
    | (.error _, reg') => (none, reg')

/-- Modelled from the spec: the fixed status-edge table of `update` (§4.1):
`pending→in_progress`, `in_progress→completed`, `in_progress→failed`,
`in_progress→review`, `review→completed`, `review→pending`. -/
def updateEdge : TaskStatus → TaskStatus → Bool
  | .pending, .in_progress => true
  | .in_progress, .completed => true
  | .in_progress, .failed => true
  | .in_progress, .review => true
  | .review, .completed => true
  | .review, .pending => true
  | _, _ => false

/-- Row produced by a successful `update`: the new status is written,
`claimed_by` is kept (or taken from the supplied claimant) while the task
is `in_progress` and cleared otherwise — in particular the
`review→pending` reopen clears it — the metadata patch is merged and
`updated_at` is bumped. -/
def applyStatus (t : Task) (newStatus : TaskStatus) (patch : List (String × String))
    (claimant : Option String) (now : Nat) : Task :=
  { t with
    status := newStatus,
    claimed_by :=
      if newStatus = TaskStatus.in_progress then
        match t.claimed_by with
        | some a => some a
        | none => claimant
      else none,
    metadata := t.metadata ++ patch,
    updated_at := now }

/-- Modelled from the spec: `update(task_id, new_status, metadata_patch)`
of §4.1.  The requested edge is validated against `updateEdge`; the
`pending→in_progress` edge additionally requires `claimed_by` to already
be set or a claimant to be supplied; any other requested edge fails with
`InvalidTransitionError` and leaves the record untouched. -/
def updateTask (reg : List Task) (tid : Nat) (newStatus : TaskStatus)
    (patch : List (String × String)) (claimant : Option String) (now : Nat) :
    Except RegError Task × List Task :=
  match findTask reg tid with
  | none => (.error .notFound, reg)
  | some t =>
    if updateEdge t.status newStatus then
      if newStatus = TaskStatus.in_progress ∧ t.claimed_by = none ∧ claimant = none then
        (.error .validation, reg)
      else
        let t' := applyStatus t newStatus patch claimant now
        (.ok t', replaceTask reg tid t')
    else (.error .invalidTransition, reg)

/-- Count of tasks with a given status, as computed by the orchestrator's
`Where-Object { $_.status -eq ... }` filters over the single `/tasks/list`
response of the tick. -/
def countStatus (tasks : List Task) (s : TaskStatus) : Nat :=
  (tasks.filter (fun t => t.status = s)).length

/-- Decision logic of one orchestrator tick (`orchestrator.ps1`, the
`if`/`elseif` chain on `$CurrentState`): given the current state and the
counts of `pending`, `in_progress` (`$Active`) and `review` tasks, the
state to request via `/state/update`, or `none` when the tick posts
nothing. -/
def decideNext (state : SysState) (pending active inReview : Nat) : Option SysState :=
  if state = SysState.IDLE then
    if pending > 0 then some SysState.EXECUTING else none
  else if state = SysState.EXECUTING then
    if pending = 0 ∧ active = 0 then some SysState.REVIEW else none
  else if state = SysState.REVIEW then
    if inReview = 0 then
      if pending > 0 then some SysState.PLANNING else some SysState.IDLE
    else none
  else if state = SysState.PLANNING then some SysState.EXECUTING
  else none

/-- Orchestrator tick decision on a task snapshot: the three counts are all
derived from the one `$Tasks` response fetched at the start of the tick. -/
def orchestratorDecision (state : SysState) (tasks : List Task) : Option SysState :=
  decideNext state (countStatus tasks .pending) (countStatus tasks .in_progress)
    (countStatus tasks .review)

/-- System state after one orchestrator tick over a fixed task snapshot:
the requested transition (if any) is applied through the State Machine. -/
def tickState (tasks : List Task) (s : SysState) : SysState :=
  match orchestratorDecision s tasks with
  | some s' => stateAfter s s'
  | none => s

/-- Responses the two backend reads of a tick may give: each call either
yields a value or fails (connection refused, HTTP error); a failure raised
by `Invoke-RestMethod` lands in the tick's `catch` block. -/
structure Backend where
  tasksResp : Except Unit (List Task)
  stateResp : Except Unit SysState
  postResp : SysState → Except Unit Unit
deriving Inhabited

/-- Network requests a tick can issue: `GET /tasks/list`, `GET /state`,
`POST /state/update` with the requested state. -/
inductive Req where
  | fetchTasks
  | getState
  | postState (s : SysState)
deriving DecidableEq, Repr

/-- Trace of requests issued by one orchestrator tick (the `try` body of
`orchestrator.ps1`): the task list is fetched, then the state, then at
most one state update is posted; the first failing call aborts the rest of
the tick (the surrounding `catch` swallows the error).  The response to
the posted update is ignored by the code, so `postResp` does not influence
the trace. -/
def tickTrace (b : Backend) : List Req :=
  match b.tasksResp with
  | .error _ => [.fetchTasks]
  | .ok tasks =>
    match b.stateResp with
    | .error _ => [.fetchTasks, .getState]
    | .ok st =>
      match orchestratorDecision st tasks with
      | none => [.fetchTasks, .getState]
      | some s' => [.fetchTasks, .getState, .postState s']

/-- Run of the orchestrator `while($true)` loop over a sequence of per-tick
backend responses: each scheduled tick runs exactly once (after the fixed
`Start-Sleep` period), whether or not the previous tick failed; failed
ticks are not replayed. -/
def loopRun (bs : List Backend) : List (List Req) :=
  bs.map tickTrace

/-- Helper predicate: a request is a state-update post. -/
def isPost : Req → Bool
  | .postState _ => true
  | _ => false

/-- Modelled from the spec: the five-rule first-match dispatch table of
§4.4, written from the spec's words to be compared with the code-derived
`decideNext`: `IDLE ∧ pending > 0 → EXECUTING`;
`EXECUTING ∧ pending = 0 ∧ in_progress = 0 → REVIEW`;
`REVIEW ∧ review = 0 ∧ pending > 0 → PLANNING`;
`REVIEW ∧ review = 0 ∧ pending = 0 → IDLE`;
`PLANNING → EXECUTING`; no-op when no rule matches. -/
def specDispatchRule (state : SysState) (pending active inReview : Nat) : Option SysState :=
  if state = SysState.IDLE ∧ pending > 0 then some SysState.EXECUTING
  else if state = SysState.EXECUTING ∧ pending = 0 ∧ active = 0 then some SysState.REVIEW
  else if state = SysState.REVIEW ∧ inReview = 0 ∧ pending > 0 then some SysState.PLANNING
  else if state = SysState.REVIEW ∧ inReview = 0 ∧ pending = 0 then some SysState.IDLE
  else if state = SysState.PLANNING then some SysState.EXECUTING
  else none

/-- Concurrent calls racing for a task: a direct `claim(task_id, agent)` or
a `nextForAgent(agent, role)` find-and-claim. -/
inductive AgentCall where
  | claimCall (agent : String)
  | nextCall (agent : String) (role : String)
deriving DecidableEq, Repr

/-- Observable outcome of one racing call. -/
inductive CallResult where
  | claimed (t : Task)
  | conflict
  | notFound
  | noTask
deriving DecidableEq, Repr

/-- Agent identifier behind a racing call. -/
def callAgent : AgentCall → String
  | .claimCall a => a
  | .nextCall a _ => a

/-- Whether a call targets the task `t`: a direct claim always does (the
run fixes the task id), a find-and-claim does when `t` is assigned to its
role or to the wildcard. -/
def targets (t : Task) : AgentCall → Prop
  | .claimCall _ => True
  | .nextCall _ role => t.assignee = role ∨ t.assignee = "*"

/-- Execute one racing call against the registry (the target id of direct
claims is `tid`). -/
def runCall (reg : List Task) (tid : Nat) (c : AgentCall) (now : Nat) :
    CallResult × List Task :=
  match c with
  | .claimCall agent =>
    match claim reg tid agent now with
    | (.ok t, reg') => (.claimed t, reg')
    | (.error .conflict, reg') => (.conflict, reg')
    | (.error _, reg') => (.notFound, reg')
  | .nextCall agent role =>
    match nextForAgent reg agent role now with
    | (some t, reg') => (.claimed t, reg')
    | (none, reg') => (.noTask, reg')

/-- Serialized execution of a batch of racing calls, in one interleaving
order.  The spec requires `claim`/`nextForAgent` to behave as if globally
serialized per task row, so every interleaving of the concurrent calls is
some order of this sequential run. -/
def runCalls (reg : List Task) (tid : Nat) (calls : List AgentCall) (now : Nat) :
    List CallResult × List Task :=
  match calls with
  | [] => ([], reg)
  | c :: cs =>
    let step := runCall reg tid c now
    let rest := runCalls step.2 tid cs now
    (step.1 :: rest.1, rest.2)

/-- Whether a call result is a successful claim. -/
def isClaimed : CallResult → Bool
  | .claimed _ => true
  | _ => false

/-- Registry operations, for stating registry-wide invariants. -/
inductive RegOp where
  | createOp (id : Nat) (text assignee : String) (prio : Priority)
      (meta : List (String × String)) (now : Nat)
  | claimOp (tid : Nat) (agent : String) (now : Nat)
  | nextOp (agent role : String) (now : Nat)
  | updateOp (tid : Nat) (newStatus : TaskStatus) (patch : List (String × String))
      (claimant : Option String) (now : Nat)

/-- Registry after one operation (failed operations leave it unchanged). -/
def applyOp (reg : List Task) (op : RegOp) : List Task :=
  match op with
  | .createOp id text assignee prio meta now => create reg id text assignee prio meta now
  | .claimOp tid agent now => (claim reg tid agent now).2
  | .nextOp agent role now => (nextForAgent reg agent role now).2
  | .updateOp tid st patch claimant now => (updateTask reg tid st patch claimant now).2

/-- Claim invariant of §3: a task's `claimed_by` is non-null exactly when
its status is `in_progress`. -/
def ClaimInv (reg : List Task) : Prop :=
  ∀ t ∈ reg, t.claimed_by.isSome = true ↔ t.status = TaskStatus.in_progress

/-- Concrete pending task used to instantiate the theorems below. -/
def taskEx : Task := ⟨1, "work", "engineer", .pending, .normal, none, 0, 0, []⟩

/-- The task `taskEx` as it looks after agent `a1` claims it at time 5. -/
def taskExClaimed : Task := ⟨1, "work", "engineer", .in_progress, .normal, some "a1", 0, 5, []⟩

/-- C2 (amended): for every pair `(current, requested)` with `current ≠
requested` that is not an edge of the legal-transition table, `transition`
fails with `InvalidTransitionError{current, requested}` and the state
afterwards still equals `current`. -/
theorem invalid_transition_rejected (c r : SysState) (hne : ¬r = c)
    (hedge : legalEdge c r = false) :
    stmTransition c r = .error ⟨c, r⟩ ∧ stateAfter c r = c := by
  constructor
  · simp [stmTransition, hne, hedge]
  · simp [stateAfter, stmTransition, hne, hedge]

/-- Witness for C2: the concrete case of the claim — from `PLANNING` a
request for `REVIEW` fails with the error payload `{PLANNING, REVIEW}`
and the state remains `PLANNING`. -/
theorem invalid_transition_rejected_witness :
    stmTransition .PLANNING .REVIEW = .error ⟨.PLANNING, .REVIEW⟩ ∧
      stateAfter .PLANNING .REVIEW = .PLANNING :=
  invalid_transition_rejected SysState.PLANNING SysState.REVIEW (by decide) (by decide)

/-- Counterexample for C2 as frozen: `(IDLE, IDLE)` is not an edge of the
table, yet `transition(IDLE)` from `IDLE` succeeds (the idempotent no-op
rule of §4.2), so "every pair not in the table fails" is false. -/
theorem invalid_transition_counterexample :
    legalEdge .IDLE .IDLE = false ∧ stmTransition .IDLE .IDLE = .ok .IDLE :=
  ⟨rfl, rfl⟩

/-- C7: requesting a transition to the current state succeeds as an
idempotent no-op — it returns the unchanged state without error — even
though no self-edge appears in the legal-transition table. -/
theorem self_transition_noop (s : SysState) :
    stmTransition s s = .ok s ∧ stateAfter s s = s ∧ legalEdge s s = false := by
  cases s <;> exact ⟨rfl, rfl, rfl⟩

/-- C3 (amended): for a task `t` found under `task_id`, `update` succeeds
exactly when the requested edge `(t.status, new_status)` is one of the six
table edges and, for the `pending→in_progress` edge, `claimed_by` is
already set or a claimant is supplied; every edge outside the table fails
with `InvalidTransitionError` and leaves the registry completely
unchanged. -/
theorem update_edge_validation (reg : List Task) (tid : Nat) (t : Task)
    (newStatus : TaskStatus) (patch : List (String × String))
    (claimant : Option String) (now : Nat)
    (hfind : findTask reg tid = some t) :
    ((∃ t' reg', updateTask reg tid newStatus patch claimant now = (.ok t', reg')) ↔
      (updateEdge t.status newStatus = true ∧
        ¬(newStatus = TaskStatus.in_progress ∧ t.claimed_by = none ∧ claimant = none))) ∧
    (updateEdge t.status newStatus = false →
      updateTask reg tid newStatus patch claimant now = (.error .invalidTransition, reg)) := by
  unfold updateTask
  rw [hfind]
  dsimp only
  constructor
  · constructor
    · rintro ⟨t', reg', h⟩
      by_cases he : updateEdge t.status newStatus = true
      · by_cases hv : newStatus = TaskStatus.in_progress ∧ t.claimed_by = none ∧ claimant = none
        · rw [if_pos he, if_pos hv] at h
          simp at h
        · exact ⟨he, hv⟩
      · rw [if_neg he] at h
        simp at h
    · rintro ⟨he, hv⟩
      exact ⟨applyStatus t newStatus patch claimant now,
        replaceTask reg tid (applyStatus t newStatus patch claimant now),
        by rw [if_pos he, if_neg hv]⟩
  · intro he
    rw [if_neg (by simp [he])]

/-- Witness for C3: on the registry `[taskEx]`, a `pending→in_progress`
update with a supplied claimant succeeds, and a requested
`pending→completed` edge is rejected with `InvalidTransitionError`
leaving the registry unchanged. -/
theorem update_edge_validation_witness :
    (((∃ t' reg',
        updateTask [taskEx] 1 .in_progress [] (some "a1") 5 = (.ok t', reg')) ↔
      (updateEdge taskEx.status .in_progress = true ∧
        ¬(TaskStatus.in_progress = TaskStatus.in_progress ∧
            taskEx.claimed_by = none ∧ (some "a1" : Option String) = none))) ∧
    (updateEdge taskEx.status TaskStatus.in_progress = false →
      updateTask [taskEx] 1 .in_progress [] (some "a1") 5 =
        (.error .invalidTransition, [taskEx]))) ∧
    (((∃ t' reg',
        updateTask [taskEx] 1 .completed [] none 5 = (.ok t', reg')) ↔
      (updateEdge taskEx.status .completed = true ∧
        ¬(TaskStatus.completed = TaskStatus.in_progress ∧
            taskEx.claimed_by = none ∧ (none : Option String) = none))) ∧
    (updateEdge taskEx.status TaskStatus.completed = false →
      updateTask [taskEx] 1 .completed [] none 5 =
        (.error .invalidTransition, [taskEx]))) :=
  ⟨update_edge_validation [taskEx] 1 taskEx .in_progress [] (some "a1") 5 (by decide),
   update_edge_validation [taskEx] 1 taskEx .completed [] none 5 (by decide)⟩

/-- Counterexample for C3 as frozen: the requested edge
`pending→in_progress` is in the six-edge table, yet `update` on a pending
unclaimed task with no claimant supplied fails (it requires `claimed_by`
to already be set or be supplied), so "succeeds if and only if the edge is
in the table" is false. -/
theorem update_edge_counterexample :
    updateEdge .pending .in_progress = true ∧
      updateTask [taskEx] 1 .in_progress [] none 5 = (.error .validation, [taskEx]) :=
  ⟨rfl, rfl⟩

/-- C4: each orchestrator tick requests exactly the transition given by
the first matching rule of the five-rule dispatch table of §4.4, evaluated
on the counts derived from the tick's single task snapshot, and requests
none when no rule matches. -/
theorem tick_follows_dispatch_table (state : SysState) (tasks : List Task) :
    orchestratorDecision state tasks =
      specDispatchRule state (countStatus tasks .pending)
        (countStatus tasks .in_progress) (countStatus tasks .review) := by
  unfold orchestratorDecision
  generalize countStatus tasks .pending = p
  generalize countStatus tasks .in_progress = a
  generalize countStatus tasks .review = r
  cases state <;>
    by_cases hp : p = 0 <;> by_cases ha : a = 0 <;> by_cases hr : r = 0 <;>
      simp [decideNext, specDispatchRule, hp, ha, hr, Nat.pos_iff_ne_zero]

/-- C9: every transition the orchestrator itself requests is one of the
five pairs `IDLE→EXECUTING`, `EXECUTING→REVIEW`, `REVIEW→PLANNING`,
`REVIEW→IDLE`, `PLANNING→EXECUTING`, requested from the state just read in
the same tick, and each is an edge of the legal-transition table. -/
theorem loop_requests_are_legal (state : SysState) (tasks : List Task) (s' : SysState)
    (h : orchestratorDecision state tasks = some s') :
    legalEdge state s' = true ∧
      ((state, s') = (SysState.IDLE, SysState.EXECUTING) ∨
       (state, s') = (SysState.EXECUTING, SysState.REVIEW) ∨
       (state, s') = (SysState.REVIEW, SysState.PLANNING) ∨
       (state, s') = (SysState.REVIEW, SysState.IDLE) ∨
       (state, s') = (SysState.PLANNING, SysState.EXECUTING)) := by
  unfold orchestratorDecision decideNext at h
  cases state <;> simp at h <;> (try split_ifs at h) <;>
    first
      | (obtain ⟨-, rfl⟩ := h; exact ⟨rfl, by simp⟩)
      | (obtain ⟨-, h2⟩ := h; obtain rfl := Option.some.inj h2; exact ⟨rfl, by simp⟩)

/-- Witness for C9: from `IDLE` over a snapshot with one pending task, the
tick requests `EXECUTING`, a legal edge. -/
theorem loop_requests_are_legal_witness :
    legalEdge SysState.IDLE SysState.EXECUTING = true ∧
      ((SysState.IDLE, SysState.EXECUTING) = (SysState.IDLE, SysState.EXECUTING) ∨
       (SysState.IDLE, SysState.EXECUTING) = (SysState.EXECUTING, SysState.REVIEW) ∨
       (SysState.IDLE, SysState.EXECUTING) = (SysState.REVIEW, SysState.PLANNING) ∨
       (SysState.IDLE, SysState.EXECUTING) = (SysState.REVIEW, SysState.IDLE) ∨
       (SysState.IDLE, SysState.EXECUTING) = (SysState.PLANNING, SysState.EXECUTING)) :=
  loop_requests_are_legal SysState.IDLE [taskEx] SysState.EXECUTING rfl

/-- C5: over a static task population the dispatch dynamics reach a fixed
point within three ticks — the state after three ticks is unchanged by a
fourth — so the loop converges and in particular cannot alternate
indefinitely between `EXECUTING` and `REVIEW`. -/
theorem dispatch_converges (tasks : List Task) (s : SysState) :
    tickState tasks (tickState tasks (tickState tasks (tickState tasks s))) =
      tickState tasks (tickState tasks (tickState tasks s)) := by
  by_cases hp : countStatus tasks .pending = 0 <;>
  by_cases ha : countStatus tasks .in_progress = 0 <;>
  by_cases hr : countStatus tasks .review = 0 <;>
  cases s <;>
  simp [tickState, orchestratorDecision, decideNext, stateAfter, stmTransition, legalEdge,
    hp, ha, hr, Nat.pos_iff_ne_zero]

/-- Helper: the request trace of one tick never repeats a request. -/
theorem tickTrace_nodup (b : Backend) : (tickTrace b).Nodup := by
  unfold tickTrace
  rcases b with ⟨tr, sr, pr⟩
  dsimp only
  cases tr with
  | error e => simp
  | ok tasks =>
    cases sr with
    | error e => simp
    | ok st =>
      cases hd : orchestratorDecision st tasks <;> simp [hd]

/-- C6: a backend failure inside a tick is isolated — if the task fetch
fails the tick stops after that single call, if the state read fails the
tick stops after those two calls, no call is retried within the tick, and
the loop still runs every subsequent scheduled tick exactly once (failed
ticks are swallowed by the `catch`, never replayed). -/
theorem tick_failure_isolated (b : Backend) (bs : List Backend) :
    (b.tasksResp = .error () → tickTrace b = [.fetchTasks]) ∧
    (∀ ts, b.tasksResp = .ok ts → b.stateResp = .error () →
      tickTrace b = [.fetchTasks, .getState]) ∧
    (∀ r, (tickTrace b).count r ≤ 1) ∧
    loopRun (b :: bs) = tickTrace b :: loopRun bs ∧
    (loopRun bs).length = bs.length := by
  refine ⟨?_, ?_, ?_, rfl, List.length_map _ _⟩
  · intro h
    unfold tickTrace
    rw [h]
  · intro ts h1 h2
    unfold tickTrace
    rw [h1, h2]
  · exact fun r => List.nodup_iff_count_le_one.mp (tickTrace_nodup b) r

/-- Witness for C6: a backend whose task fetch is refused yields the
one-request trace, and a backend whose state read is refused yields the
two-request trace. -/
theorem tick_failure_isolated_witness :
    tickTrace ⟨.error (), .error (), fun _ => .ok ()⟩ = [.fetchTasks] ∧
      tickTrace ⟨.ok [], .error (), fun _ => .ok ()⟩ = [.fetchTasks, .getState] :=
  ⟨(tick_failure_isolated ⟨.error (), .error (), fun _ => .ok ()⟩ []).1 rfl,
   (tick_failure_isolated ⟨.ok [], .error (), fun _ => .ok ()⟩ []).2.1 [] rfl rfl⟩

/-- C10: each tick is single-shot and deterministic — its trace contains
exactly one task-list fetch, at most one state read, at most one
state-update post, and two ticks whose backends return the same task
snapshot and the same current state issue identical request traces. -/
theorem tick_single_shot (b b2 : Backend) :
    (tickTrace b).count .fetchTasks = 1 ∧
    (tickTrace b).count .getState ≤ 1 ∧
    ((tickTrace b).filter isPost).length ≤ 1 ∧
    (b.tasksResp = b2.tasksResp → b.stateResp = b2.stateResp →
      tickTrace b = tickTrace b2) := by
  refine ⟨?_, ?_, ?_, ?_⟩
  · unfold tickTrace
    rcases b with ⟨tr, sr, pr⟩
    dsimp only
    cases tr with
    | error e => simp
    | ok tasks =>
      cases sr with
      | error e => simp
      | ok st => cases hd : orchestratorDecision st tasks <;> simp [hd]
  · exact List.nodup_iff_count_le_one.mp (tickTrace_nodup b) _
  · unfold tickTrace
    rcases b with ⟨tr, sr, pr⟩
    dsimp only
    cases tr with
    | error e => simp [isPost]
    | ok tasks =>
      cases sr with
      | error e => simp [isPost]
      | ok st => cases hd : orchestratorDecision st tasks <;> simp [hd, isPost]
  · intro h1 h2
    rcases b with ⟨tr, sr, pr⟩
    rcases b2 with ⟨tr2, sr2, pr2⟩
    simp only at h1 h2
    subst h1
    subst h2
    rfl

/-- Witness for C10: two backends that agree on the snapshot and the state
but have different update endpoints produce the same trace. -/
theorem tick_single_shot_witness :
    tickTrace ⟨.ok [taskEx], .ok .IDLE, fun _ => .ok ()⟩ =
      tickTrace ⟨.ok [taskEx], .ok .IDLE, fun _ => .error ()⟩ :=
  (tick_single_shot ⟨.ok [taskEx], .ok .IDLE, fun _ => .ok ()⟩
    ⟨.ok [taskEx], .ok .IDLE, fun _ => .error ()⟩).2.2.2 rfl rfl

/-- Helper: replacing one row by a row that satisfies the claim invariant
preserves the registry-wide invariant. -/
theorem replaceTask_inv (reg : List Task) (tid : Nat) (t' : Task)
    (h : ClaimInv reg)
    (h' : t'.claimed_by.isSome = true ↔ t'.status = TaskStatus.in_progress) :
    ClaimInv (replaceTask reg tid t') := by
  intro u hu
  unfold replaceTask at hu
  rcases List.mem_map.mp hu with ⟨v, hv, hvu⟩
  by_cases hid : v.id = tid
  · rw [if_pos hid] at hvu
    exact hvu ▸ h'
  · rw [if_neg hid] at hvu
    exact hvu ▸ h v hv

/-- Helper: the registry returned by `claim` satisfies the claim invariant
whenever the input registry does. -/
theorem claim_inv (reg : List Task) (tid : Nat) (agent : String) (now : Nat)
    (h : ClaimInv reg) : ClaimInv (claim reg tid agent now).2 := by
  unfold claim
  cases hf : findTask reg tid with
  | none => exact h
  | some t =>
    dsimp only
    by_cases hs : t.status = TaskStatus.pending
    · rw [if_pos hs]
      exact replaceTask_inv reg tid _ h (by simp [afterClaim])
    · rw [if_neg hs]
      exact h

/-- Helper: the row produced by `applyStatus` satisfies the claim
invariant provided the validation guard of `update` passed. -/
theorem applyStatus_inv (t : Task) (newStatus : TaskStatus)
    (patch : List (String × String)) (claimant : Option String) (now : Nat)
    (hg : ¬(newStatus = TaskStatus.in_progress ∧ t.claimed_by = none ∧ claimant = none)) :
    (applyStatus t newStatus patch claimant now).claimed_by.isSome = true ↔
      (applyStatus t newStatus patch claimant now).status = TaskStatus.in_progress := by
  unfold applyStatus
  by_cases hn : newStatus = TaskStatus.in_progress
  · rw [if_pos hn]
    dsimp only
    cases hc : t.claimed_by with
    | some a => simp [hn]
    | none =>
      cases hcl : claimant with
      | some a => simp [hn]
      | none => exact absurd ⟨hn, hc, hcl⟩ hg
  · rw [if_neg hn]
    simp [hn]

/-- C8: the claim invariant — `claimed_by` non-null iff `status =
in_progress` — holds in every reachable registry state: it is preserved by
every sequence of `create`, `claim`, `nextForAgent` and `update`
operations (including the `review→pending` reopen, which clears
`claimed_by`). -/
theorem claim_invariant_preserved (reg : List Task) (ops : List RegOp)
    (h : ClaimInv reg) : ClaimInv (ops.foldl applyOp reg) := by
  induction ops generalizing reg with
  | nil => exact h
  | cons op ops ih =>
    refine ih _ ?_
    cases op with
    | createOp id text assignee prio meta now =>
      intro u hu
      unfold applyOp create at hu
      rcases List.mem_append.mp hu with hu | hu
      · exact h u hu
      · rcases List.mem_singleton.mp hu with rfl
        simp
    | claimOp tid agent now => exact claim_inv reg tid agent now h
    | nextOp agent role now =>
      show ClaimInv (nextForAgent reg agent role now).2
      unfold nextForAgent
      cases hf : reg.find? (eligibleFor role) with
      | none => exact h
      | some t =>
        dsimp only
        have hci := claim_inv reg t.id agent now h
        rcases hc : claim reg t.id agent now with ⟨res, reg'⟩
        rw [hc] at hci
        cases res <;> simpa using hci
    | updateOp tid st patch claimant now =>
      show ClaimInv (updateTask reg tid st patch claimant now).2
      unfold updateTask
      cases hf : findTask reg tid with
      | none => exact h
      | some t =>
        dsimp only
        by_cases he : updateEdge t.status st = true
        · rw [if_pos he]
          by_cases hv : st = TaskStatus.in_progress ∧ t.claimed_by = none ∧ claimant = none
          · rw [if_pos hv]
            exact h
          · rw [if_neg hv]
            exact replaceTask_inv reg tid _ h (applyStatus_inv t st patch claimant now hv)
        · rw [if_neg he]
          exact h

/-- Witness for C8: the invariant holds after creating and then claiming a
task, starting from the empty registry (which satisfies the invariant). -/
theorem claim_invariant_preserved_witness :
    ClaimInv ([RegOp.createOp 1 "w" "engineer" Priority.normal [] 0,
      RegOp.claimOp 1 "a1" 1].foldl applyOp []) :=
  claim_invariant_preserved []
    [RegOp.createOp 1 "w" "engineer" Priority.normal [] 0, RegOp.claimOp 1 "a1" 1]
    (fun t ht => absurd ht (List.not_mem_nil t))

/-- Helper: in a registry holding only the pending task `t`, a racing call
targeting `t` claims it, leaving the registry with the claimed row. -/
theorem runCall_pending (t : Task) (c : AgentCall) (now : Nat)
    (hp : t.status = TaskStatus.pending) (hc : targets t c) :
    runCall [t] t.id c now =
      (.claimed (afterClaim t (callAgent c) now), [afterClaim t (callAgent c) now]) := by
  cases c with
  | claimCall agent =>
    unfold runCall claim findTask replaceTask callAgent
    simp [hp]
  | nextCall agent role =>
    have he : eligibleFor role t = true := by
      unfold eligibleFor
      rcases hc with h1 | h1 <;> simp [hp, h1]
    unfold runCall nextForAgent
    dsimp only
    rw [show List.find? (eligibleFor role) [t] = some t by simp [he]]
    dsimp only
    unfold claim findTask replaceTask callAgent
    simp [hp]

/-- Helper: once the only task is no longer pending, a racing claim call
returns `ConflictError` and a racing find-and-claim returns no task, the
registry staying unchanged. -/
theorem runCall_taken (t : Task) (c : AgentCall) (now : Nat)
    (hs : ¬t.status = TaskStatus.pending) :
    ((runCall [t] t.id c now).1 = CallResult.conflict ∨
      (runCall [t] t.id c now).1 = CallResult.noTask) ∧
    (runCall [t] t.id c now).2 = [t] := by
  cases c with
  | claimCall agent =>
    unfold runCall claim findTask
    simp [hs]
  | nextCall agent role =>
    have he : eligibleFor role t = false := by
      unfold eligibleFor
      simp [hs]
    unfold runCall nextForAgent
    dsimp only
    rw [show List.find? (eligibleFor role) [t] = none by simp [he]]
    simp

/-- Helper: over a single-task registry whose task is already claimed,
every batch of racing calls produces no successful claim, only
`ConflictError` or no-task results, and does not change the registry. -/
theorem runCalls_taken (cs : List AgentCall) (t : Task) (now : Nat)
    (hs : t.status = TaskStatus.in_progress) :
    (runCalls [t] t.id cs now).1.countP (fun r => isClaimed r) = 0 ∧
    (runCalls [t] t.id cs now).2 = [t] ∧
    ∀ r ∈ (runCalls [t] t.id cs now).1,
      r = CallResult.conflict ∨ r = CallResult.noTask := by
  induction cs with
  | nil => simp [runCalls]
  | cons c cs ih =>
    have hb := runCall_taken t c now (by simp [hs])
    unfold runCalls
    rcases hr : runCall [t] t.id c now with ⟨res, reg'⟩
    rw [hr] at hb
    dsimp only at hb ⊢
    rw [hb.2]
    refine ⟨?_, ih.2.1, ?_⟩
    · rcases hb.1 with h1 | h1 <;>
        rw [List.countP_cons, h1] <;>
        simpa [isClaimed] using ih.1
    · intro r hrm
      rcases List.mem_cons.mp hrm with rfl | hrm
      · exact hb.1
      · exact ih.2.2 r hrm

/-- C1 (amended): with `t` the registry's only pending task, for every
serialized order of `N ≥ 2` racing `claim`/`nextForAgent` calls that all
target `t`, exactly one call succeeds — the first — setting
`status = in_progress` and `claimed_by` to that caller's agent id; every
other claim call returns `ConflictError` and every other `nextForAgent`
call returns no task; afterwards `t` has exactly one `claimed_by`. -/
theorem claim_exclusivity (t : Task) (c : AgentCall) (cs : List AgentCall) (now : Nat)
    (hp : t.status = TaskStatus.pending) (hn : cs ≠ [])
    (hc : targets t c) (hcs : ∀ x ∈ cs, targets t x) :
    (runCalls [t] t.id (c :: cs) now).1.countP (fun r => isClaimed r) = 1 ∧
    (runCalls [t] t.id (c :: cs) now).2 = [afterClaim t (callAgent c) now] ∧
    (afterClaim t (callAgent c) now).status = TaskStatus.in_progress ∧
    (afterClaim t (callAgent c) now).claimed_by = some (callAgent c) ∧
    ∀ r ∈ (runCalls [t] t.id (c :: cs) now).1.tail,
      r = CallResult.conflict ∨ r = CallResult.noTask := by
  have hstep := runCall_pending t c now hp hc
  have hid : (afterClaim t (callAgent c) now).id = t.id := rfl
  have hrest := runCalls_taken cs (afterClaim t (callAgent c) now) now rfl
  rw [hid] at hrest
  unfold runCalls
  rw [hstep]
  dsimp only
  refine ⟨?_, hrest.2.1, rfl, rfl, ?_⟩
  · rw [List.countP_cons, hrest.1]
    simp [isClaimed]
  · intro r hrm
    exact hrest.2.2 r hrm

/-- Witness for C1: the pending task `taskEx` raced by a direct claim from
`a1` and a find-and-claim from `a2`; `a1` wins, `a2` gets no task, and the
final registry holds the single claimed row. -/
theorem claim_exclusivity_witness :
    (runCalls [taskEx] taskEx.id
        [.claimCall "a1", .nextCall "a2" "engineer"] 5).1.countP
        (fun r => isClaimed r) = 1 ∧
    (runCalls [taskEx] taskEx.id [.claimCall "a1", .nextCall "a2" "engineer"] 5).2 =
      [afterClaim taskEx (callAgent (.claimCall "a1")) 5] ∧
    (afterClaim taskEx (callAgent (.claimCall "a1")) 5).status =
      TaskStatus.in_progress ∧
    (afterClaim taskEx (callAgent (.claimCall "a1")) 5).claimed_by =
      some (callAgent (.claimCall "a1")) ∧
    ∀ r ∈ (runCalls [taskEx] taskEx.id
        [.claimCall "a1", .nextCall "a2" "engineer"] 5).1.tail,
      r = CallResult.conflict ∨ r = CallResult.noTask :=
  claim_exclusivity taskEx (.claimCall "a1") [.nextCall "a2" "engineer"] 5 rfl
    (by simp) trivial
    (by intro x hx; rw [List.mem_singleton.mp hx]; exact Or.inl rfl)

/-- Counterexample for C1 as frozen: in the race of a direct claim by `a1`
and a `nextForAgent` by `a2` for the single pending task `taskEx`, the
losing `nextForAgent` call returns no task rather than `ConflictError`,
so "every other call returns ConflictError" is false. -/
theorem claim_exclusivity_counterexample :
    runCalls [taskEx] 1 [.claimCall "a1", .nextCall "a2" "engineer"] 5 =
      ([.claimed taskExClaimed, .noTask], [taskExClaimed]) ∧
    CallResult.noTask ≠ CallResult.conflict :=
  ⟨rfl, by simp⟩

end StudioMode
